import Mathlib

/-!
Shallow embedding of `crates/e2e-test-utils/src/testsuite/actions.rs`.

Each testsuite action mutates a shared `Environment` (the run context) and
talks to node peers over two JSON-RPC surfaces.  Network calls are modeled
by oracle functions passed to each action: an oracle maps a peer index (and,
where relevant, a payload id) to the response the peer would return, with
`Except Unit` capturing transport-level failure (the `?` operator on an RPC
call in the source).  Hashes, addresses and payload ids are modeled as `Nat`;
only equality of these values matters to the actions.
-/

namespace E2E

/-- Engine-API payload status (`alloy_rpc_types_engine::PayloadStatusEnum`). -/
inductive PayloadStatusEnum where
  | valid
  | invalid (validationError : Option Nat)
  | syncing
  | accepted
deriving DecidableEq, Repr

/-- Payload attributes (`alloy_rpc_types_engine::PayloadAttributes`). -/
structure PayloadAttributes where
  timestamp : Nat
  prev_randao : Nat
  suggested_fee_recipient : Nat
  withdrawals : Option (List Nat)
  parent_beacon_block_root : Option Nat
deriving DecidableEq, Repr

/-- The fields of an RPC block header the actions read
(`alloy_rpc_types_eth::Header`, with `inner` flattened). -/
structure Header where
  hash : Nat
  number : Nat
  difficulty : Nat
  mix_hash : Nat
  extra_data : List Nat
  parent_beacon_block_root : Option Nat
deriving DecidableEq, Repr

/-- An RPC block; the actions only read its header fields. -/
structure Block where
  header : Header
deriving DecidableEq, Repr

/-- `latest_block_info`: the {hash, number} consensus point. -/
structure BlockInfo where
  hash : Nat
  number : Nat
deriving DecidableEq, Repr

/-- `alloy_rpc_types_engine::ForkchoiceState`. -/
structure ForkchoiceState where
  head_block_hash : Nat
  safe_block_hash : Nat
  finalized_block_hash : Nat
deriving DecidableEq, Repr

/-- The part of `ExecutionPayloadEnvelopeV3` the actions read:
`execution_payload.payload_inner.payload_inner.block_hash`. -/
structure ExecutionPayloadEnvelopeV3 where
  block_hash : Nat
deriving DecidableEq, Repr

/-- Result of a `fork_choice_updated` engine call: a payload status plus an
optional payload id. -/
structure ForkchoiceUpdated where
  payload_status : PayloadStatusEnum
  payload_id : Option Nat
deriving DecidableEq, Repr

/-- Descriptive failures (`eyre::eyre!` messages in the source). -/
inductive Err where
  | nodeIndexOutOfBounds (idx : Nat)
  | latestBlockNotFound
  | noPayloadIdReturned
  | payloadStatusNotValid
  | noNodeClients
  | noLatestBlockInfo
  | noSuitableProducer
  | transport (idx : Nat)
  | noPayloadAttributesFound
  | noLatestHeaderFromRpc
  | noNextBuiltPayload
  | cannotFindPayloadId
  | noClientsPassedChecks
  | failedForkchoiceBroadcast (idx : Nat)
  | noLatestBlockFromRpc
  | blockNumberMismatch (got expected : Nat)
  | noParentBeaconBlockRootPayload
  | noParentBeaconBlockRootBlock
  | parentBeaconRootMismatch (expected got : Nat)
  | failedBroadcastToAnyClient
deriving DecidableEq, Repr

/-- An RPC call: either a transport error (the `?` on the call aborts the
action) or a response. -/
abbrev Rpc (α : Type) := Except Unit α

/-- `HashMap::insert` on a map modeled as a function to `Option`. -/
def insertMap {α : Type} (m : Nat → Option α) (key : Nat) (v : α) : Nat → Option α :=
  fun k => if k = key then some v else m k

/-- The run context (`Environment<I>`).  The peer handles carry no state of
their own inside this core, so `node_clients` records only the peer count
(`env.node_clients.len()`); the peers' responses are the oracles passed to
each action.  The two hash maps are modeled as functions to `Option`. -/
structure Environment where
  node_clients : Nat
  latest_block_info : Option BlockInfo
  latest_header_time : Nat
  block_timestamp_increment : Nat
  payload_attributes : Nat → Option PayloadAttributes
  last_producer_idx : Option Nat
  next_payload_id : Option Nat
  payload_id_history : Nat → Option Nat
  latest_payload_built : Option PayloadAttributes
  latest_payload_executed : Option PayloadAttributes
  latest_fork_choice_state : ForkchoiceState

/-! ### PickNextBlockProducer -/

/-- The `for i in 0..num_clients` scan of `PickNextBlockProducer::execute`:
visits `(start_idx + i) % num_clients`, queries that peer's latest block, and
selects the first peer whose block hash and number both match
`latest_block_info`. -/
def pickLoop (peers : Nat → Rpc (Option Block)) (info : BlockInfo)
    (num_clients start_idx : Nat) (env : Environment) :
    List Nat → Except Err Environment
  | [] => .error .noSuitableProducer
  | i :: rest =>
    let idx := (start_idx + i) % num_clients
    match peers idx with
    | .error _ => .error (.transport idx)
    | .ok none => pickLoop peers info num_clients start_idx env rest
    | .ok (some block) =>
      if block.header.hash = info.hash ∧ block.header.number = info.number then
        .ok { env with last_producer_idx := some idx }
      else
        pickLoop peers info num_clients start_idx env rest

/-- `PickNextBlockProducer::execute`. -/
def pickNextBlockProducer (peers : Nat → Rpc (Option Block)) (env : Environment) :
    Except Err Environment :=
  if env.node_clients = 0 then .error .noNodeClients
  else
    match env.latest_block_info with
    | none => .error .noLatestBlockInfo
    | some info =>
      let start_idx := (info.number + 1) % env.node_clients
      pickLoop peers info env.node_clients start_idx env (List.range env.node_clients)

/-- Spec-side description of the scan order: round-robin indices starting at
`(N + 1) % P`. -/
def scanOrder (P N : Nat) : List Nat :=
  (List.range P).map (fun i => ((N + 1) % P + i) % P)

/-- Spec-side description of a matching peer: its latest-block query returns a
block whose hash and number both equal `latest_block_info`. -/
def peerMatches (peers : Nat → Rpc (Option Block)) (info : BlockInfo) (idx : Nat) : Bool :=
  match peers idx with
  | .ok (some block) => block.header.hash == info.hash && block.header.number == info.number
  | _ => false

theorem pickLoop_eq_find (peers : Nat → Rpc (Option Block)) (info : BlockInfo)
    (P start : Nat) (env : Environment) (hP : 0 < P)
    (htrans : ∀ idx, idx < P → peers idx ≠ .error ()) :
    ∀ l : List Nat,
      pickLoop peers info P start env l =
        match (l.map (fun i => (start + i) % P)).find? (peerMatches peers info) with
        | some idx => .ok { env with last_producer_idx := some idx }
        | none => .error .noSuitableProducer := by
  intro l
  induction l with
  | nil => rfl
  | cons i rest ih =>
    have hlt : (start + i) % P < P := Nat.mod_lt _ hP
    simp only [pickLoop, List.map_cons, List.find?_cons]
    cases hpeer : peers ((start + i) % P) with
    | error u =>
      cases u
      exact absurd hpeer (htrans _ hlt)
    | ok ob =>
      cases ob with
      | none =>
        have : peerMatches peers info ((start + i) % P) = false := by
          simp [peerMatches, hpeer]
        simp [this, ih]
      | some block =>
        by_cases hm : block.header.hash = info.hash ∧ block.header.number = info.number
        · have : peerMatches peers info ((start + i) % P) = true := by
            simp [peerMatches, hpeer, hm.1, hm.2]
          simp [hm, this]
        · have : peerMatches peers info ((start + i) % P) = false := by
            simp only [peerMatches, hpeer]
            rw [Bool.and_eq_false_iff]
            rcases Decidable.not_and_iff_or_not.mp hm with h | h
            · exact Or.inl (by simpa using h)
            · exact Or.inr (by simpa using h)
          simp [hm, this, ih]

/-- C1: with at least one peer and `latest_block_info = {hash, number := N}`
set, and no transport errors, `PickNextBlockProducer` scans peers in
round-robin order starting at `(N + 1) % P`, records in `last_producer_idx`
the first index whose latest-block query matches `latest_block_info`, and
fails exactly when no peer matches; the order for `P = 3, N = 10` is
`[2, 0, 1]`; it also fails when `P = 0` or when `latest_block_info` is
absent. -/
theorem pickNextBlockProducer_spec (peers : Nat → Rpc (Option Block))
    (env : Environment) (info : BlockInfo)
    (hP : 0 < env.node_clients)
    (hinfo : env.latest_block_info = some info)
    (htrans : ∀ idx, idx < env.node_clients → peers idx ≠ .error ()) :
    (pickNextBlockProducer peers env =
      match (scanOrder env.node_clients info.number).find? (peerMatches peers info) with
      | some idx => .ok { env with last_producer_idx := some idx }
      | none => .error .noSuitableProducer)
    ∧ scanOrder 3 10 = [2, 0, 1]
    ∧ (∀ env' : Environment, env'.node_clients = 0 →
        pickNextBlockProducer peers env' = .error .noNodeClients)
    ∧ (∀ env' : Environment, 0 < env'.node_clients → env'.latest_block_info = none →
        pickNextBlockProducer peers env' = .error .noLatestBlockInfo) := by
  refine ⟨?_, by decide, ?_, ?_⟩
  · have hne : ¬ env.node_clients = 0 := Nat.pos_iff_ne_zero.mp hP
    simp only [pickNextBlockProducer, hne, if_false, hinfo]
    rw [pickLoop_eq_find peers info env.node_clients ((info.number + 1) % env.node_clients)
      env hP htrans (List.range env.node_clients)]
    simp only [scanOrder, hinfo]
  · intro env' h0
    simp [pickNextBlockProducer, h0]
  · intro env' hpos hnone
    have hne : ¬ env'.node_clients = 0 := Nat.pos_iff_ne_zero.mp hpos
    simp [pickNextBlockProducer, hne, hnone]

/-- A concrete run context used to instantiate the theorems: three peers,
`latest_block_info = {hash := 5, number := 10}`. -/
def env0 : Environment where
  node_clients := 3
  latest_block_info := some ⟨5, 10⟩
  latest_header_time := 100
  block_timestamp_increment := 2
  payload_attributes := fun _ => none
  last_producer_idx := none
  next_payload_id := none
  payload_id_history := fun _ => none
  latest_payload_built := none
  latest_payload_executed := none
  latest_fork_choice_state := ⟨0, 0, 0⟩

/-- Concrete peer responses: every peer reports a block with number 10; only
peer 0 reports hash 5. -/
def peers0 : Nat → Rpc (Option Block) :=
  fun idx => .ok (some ⟨⟨if idx = 0 then 5 else 7, 10, 0, 0, [], none⟩⟩)

theorem pickNextBlockProducer_spec_witness :
    pickNextBlockProducer peers0 env0 = .ok { env0 with last_producer_idx := some 0 } := by
  have h := (pickNextBlockProducer_spec peers0 env0 ⟨5, 10⟩ (by decide) rfl
    (fun idx _ => by simp [peers0])).1
  rw [h]
  rfl

/-! ### GeneratePayloadAttributes -/

/-- `GeneratePayloadAttributes::execute`.  The two random draws
(`B256::random()` for `prev_randao`, `Address::random()` for the fee
recipient) are supplied as oracle arguments. -/
def generatePayloadAttributes (prev_randao suggested_fee_recipient : Nat)
    (env : Environment) : Except Err Environment :=
  match env.latest_block_info with
  | none => .error .noLatestBlockInfo
  | some latest_block =>
    let timestamp := env.latest_header_time + env.block_timestamp_increment
    let pa : PayloadAttributes :=
      { timestamp := timestamp
        prev_randao := prev_randao
        suggested_fee_recipient := suggested_fee_recipient
        withdrawals := some []
        parent_beacon_block_root := some 0 }
    .ok { env with
      payload_attributes := insertMap env.payload_attributes (latest_block.number + 1) pa }

/-- A run context for exercising `GeneratePayloadAttributes`:
`latest_header_time = 0`, `block_timestamp_increment = 1`,
`latest_block_info.number = 5`. -/
def envGPA : Environment := { env0 with
  latest_block_info := some ⟨4, 5⟩
  latest_header_time := 0
  block_timestamp_increment := 1 }

/-- C3 counterexample: with `t0 = 0`, `T = 1`, `n = 5`, running
`GeneratePayloadAttributes` twice with no intervening header update stores
timestamp `1 = t0 + T` under key `6` after the second call, not
`2 = t0 + 2T`: the action never advances `latest_header_time`, so the second
call recomputes the same timestamp. -/
theorem generatePayloadAttributes_twice_counterexample :
    ((generatePayloadAttributes 7 8 envGPA).bind (generatePayloadAttributes 9 11) |>.map
      (fun e => (e.payload_attributes 6).map PayloadAttributes.timestamp))
      = .ok (some 1) ∧ (1 : Nat) ≠ 0 + 2 * 1 := by
  constructor
  · rfl
  · decide

/-- The attribute bundle built by one call of `GeneratePayloadAttributes`. -/
def builtAttributes (ts r f : Nat) : PayloadAttributes :=
  ⟨ts, r, f, some [], some 0⟩

/-- The run context after one successful call of `GeneratePayloadAttributes`. -/
def attributesInserted (env : Environment) (info : BlockInfo) (r f : Nat) : Environment :=
  { env with
    payload_attributes := insertMap env.payload_attributes (info.number + 1)
      (builtAttributes (env.latest_header_time + env.block_timestamp_increment) r f) }

/-- One successful call of `GeneratePayloadAttributes`, spelled out. -/
theorem generatePayloadAttributes_ok (env : Environment) (info : BlockInfo)
    (hinfo : env.latest_block_info = some info) (r f : Nat) :
    generatePayloadAttributes r f env = .ok (attributesInserted env info r f) := by
  simp only [generatePayloadAttributes, hinfo, builtAttributes, attributesInserted, insertMap]

/-- C3 (amended): with `latest_block_info.number = n` set, calling
`GeneratePayloadAttributes` twice with no intervening header update produces
the timestamp `latest_header_time + block_timestamp_increment` on BOTH calls
(the action does not advance `latest_header_time`), and each call stores its
attribute bundle under exactly the key `n + 1` in effect at call time and
under no other key. -/
theorem generatePayloadAttributes_twice_spec (env : Environment) (info : BlockInfo)
    (hinfo : env.latest_block_info = some info) (r1 f1 r2 f2 : Nat) :
    ∃ env1 env2,
      generatePayloadAttributes r1 f1 env = .ok env1 ∧
      generatePayloadAttributes r2 f2 env1 = .ok env2 ∧
      (env1.payload_attributes (info.number + 1)).map PayloadAttributes.timestamp
        = some (env.latest_header_time + env.block_timestamp_increment) ∧
      (env2.payload_attributes (info.number + 1)).map PayloadAttributes.timestamp
        = some (env.latest_header_time + env.block_timestamp_increment) ∧
      (∀ k, k ≠ info.number + 1 →
        env1.payload_attributes k = env.payload_attributes k ∧
        env2.payload_attributes k = env1.payload_attributes k) := by
  refine ⟨attributesInserted env info r1 f1,
    attributesInserted (attributesInserted env info r1 f1) info r2 f2,
    generatePayloadAttributes_ok env info hinfo r1 f1,
    generatePayloadAttributes_ok (attributesInserted env info r1 f1) info hinfo r2 f2,
    ?_, ?_, ?_⟩
  · simp [attributesInserted, insertMap, builtAttributes]
  · simp [attributesInserted, insertMap, builtAttributes]
  · intro k hk
    constructor
    · simp [attributesInserted, insertMap, hk]
    · simp [attributesInserted, insertMap, hk]

theorem generatePayloadAttributes_twice_spec_witness :
    ∃ env1 env2,
      generatePayloadAttributes 7 8 envGPA = .ok env1 ∧
      generatePayloadAttributes 9 11 env1 = .ok env2 ∧
      (env1.payload_attributes 6).map PayloadAttributes.timestamp = some 1 ∧
      (env2.payload_attributes 6).map PayloadAttributes.timestamp = some 1 ∧
      (∀ k, k ≠ 6 →
        env1.payload_attributes k = envGPA.payload_attributes k ∧
        env2.payload_attributes k = env1.payload_attributes k) :=
  generatePayloadAttributes_twice_spec envGPA ⟨4, 5⟩ rfl 7 8 9 11

/-! ### GenerateNextPayload -/

/-- `GenerateNextPayload::execute`.  `fcu_result` is the response of the
`fork_choice_updated_v3` call to peer 0 carrying the staged attributes;
`getPayload` maps a payload id to the response of `get_payload_v3` on peer 0
(already converted into its payload-attributes view, as `.into()` does). -/
def generateNextPayload (fcu_result : Rpc ForkchoiceUpdated)
    (getPayload : Nat → Rpc PayloadAttributes) (env : Environment) :
    Except Err Environment :=
  match env.latest_block_info with
  | none => .error .noLatestBlockInfo
  | some latest_block =>
    match env.payload_attributes latest_block.number with
    | none => .error .noPayloadAttributesFound
    | some _payload_attributes =>
      match fcu_result with
      | .error _ => .error (.transport 0)
      | .ok fcu =>
        match fcu.payload_id with
        | none => .error .noPayloadIdReturned
        | some payload_id =>
          match getPayload payload_id with
          | .error _ => .error (.transport 0)
          | .ok built_payload =>
            .ok { env with
              next_payload_id := some payload_id
              payload_id_history :=
                insertMap env.payload_id_history (latest_block.number + 1) payload_id
              latest_payload_built := some built_payload }

/-- C4: `GenerateNextPayload` reads the staged payload attributes at exactly
the key `latest_block_info.number` and fails hard when no entry exists there;
when the fork-choice-update call returns without a payload id it fails hard;
and on success it records the returned payload id in `payload_id_history`
under key `latest_block_info.number + 1` and stores the retrieved payload as
`latest_payload_built`. -/
theorem generateNextPayload_spec (fcu_result : Rpc ForkchoiceUpdated)
    (getPayload : Nat → Rpc PayloadAttributes) (env : Environment) (info : BlockInfo)
    (hinfo : env.latest_block_info = some info) :
    (env.payload_attributes info.number = none →
      generateNextPayload fcu_result getPayload env = .error .noPayloadAttributesFound)
    ∧ (∀ pa st, env.payload_attributes info.number = some pa →
        fcu_result = .ok ⟨st, none⟩ →
        generateNextPayload fcu_result getPayload env = .error .noPayloadIdReturned)
    ∧ (∀ pa st payload_id built, env.payload_attributes info.number = some pa →
        fcu_result = .ok ⟨st, some payload_id⟩ →
        getPayload payload_id = .ok built →
        ∃ env', generateNextPayload fcu_result getPayload env = .ok env' ∧
          env'.payload_id_history (info.number + 1) = some payload_id ∧
          (∀ k, k ≠ info.number + 1 → env'.payload_id_history k = env.payload_id_history k) ∧
          env'.latest_payload_built = some built) := by
  refine ⟨?_, ?_, ?_⟩
  · intro hnone
    simp only [generateNextPayload, hinfo, hnone]
  · intro pa st hpa hfcu
    simp only [generateNextPayload, hinfo, hpa, hfcu]
  · intro pa st payload_id built hpa hfcu hgp
    refine ⟨{ env with
        next_payload_id := some payload_id
        payload_id_history := insertMap env.payload_id_history (info.number + 1) payload_id
        latest_payload_built := some built }, ?_, ?_, ?_, ?_⟩
    · simp only [generateNextPayload, hinfo, hpa, hfcu, hgp]
    · simp [insertMap]
    · intro k hk
      simp [insertMap, hk]
    · rfl

/-- A run context with staged attributes for block 10 (the
`latest_block_info.number` of `env0`). -/
def envGNP : Environment := { env0 with
  payload_attributes := insertMap env0.payload_attributes 10 (builtAttributes 50 1 2) }

theorem generateNextPayload_spec_witness :
    envGNP.payload_attributes 10 = some (builtAttributes 50 1 2) ∧
    ∃ env', generateNextPayload (.ok ⟨.valid, some 77⟩)
        (fun _ => .ok (builtAttributes 60 3 4)) envGNP = .ok env' ∧
      env'.payload_id_history 11 = some 77 ∧
      (∀ k, k ≠ 11 → env'.payload_id_history k = envGNP.payload_id_history k) ∧
      env'.latest_payload_built = some (builtAttributes 60 3 4) :=
  ⟨rfl, (generateNextPayload_spec (.ok ⟨.valid, some 77⟩)
      (fun _ => .ok (builtAttributes 60 3 4)) envGNP ⟨5, 10⟩ rfl).2.2
    (builtAttributes 50 1 2) .valid 77 (builtAttributes 60 3 4) rfl rfl rfl⟩

/-! ### BroadcastLatestForkchoice -/

/-- The per-peer loop of `BroadcastLatestForkchoice::execute`: sends the
fork-choice update to every peer in index order; a transport error on any
peer aborts immediately, the returned payload status is only logged. -/
def broadcastForkchoiceLoop (fcuPeer : Nat → Rpc PayloadStatusEnum)
    (env : Environment) : List Nat → Except Err Environment
  | [] => .ok env
  | idx :: rest =>
    match fcuPeer idx with
    | .ok _resp => broadcastForkchoiceLoop fcuPeer env rest
    | .error _ => .error (.failedForkchoiceBroadcast idx)

/-- `BroadcastLatestForkchoice::execute`.  `fcuPeer idx` is the response of
`fork_choice_updated_v3` on peer `idx`, carrying the fork-choice state built
from `latest_block_info.hash` and `latest_payload_executed` as the attribute
companion. -/
def broadcastLatestForkchoice (fcuPeer : Nat → Rpc PayloadStatusEnum)
    (env : Environment) : Except Err Environment :=
  let _payload := env.latest_payload_executed
  if env.node_clients = 0 then .error .noNodeClients
  else
    match env.latest_block_info with
    | none => .error .noLatestBlockInfo
    | some _latest_block =>
      broadcastForkchoiceLoop fcuPeer env (List.range env.node_clients)

theorem broadcastForkchoiceLoop_ok (fcuPeer : Nat → Rpc PayloadStatusEnum)
    (env : Environment) :
    ∀ l : List Nat, (∀ idx ∈ l, ∃ st, fcuPeer idx = .ok st) →
      broadcastForkchoiceLoop fcuPeer env l = .ok env := by
  intro l
  induction l with
  | nil => intro _; rfl
  | cons idx rest ih =>
    intro h
    obtain ⟨st, hst⟩ := h idx (List.mem_cons_self idx rest)
    simp only [broadcastForkchoiceLoop, hst]
    exact ih (fun j hj => h j (List.mem_cons_of_mem idx hj))

/-- C10: with a non-empty peer list and `latest_block_info` set, if every
peer's fork-choice call returns a response — of ANY payload status, including
Invalid or Syncing — then `BroadcastLatestForkchoice` succeeds and returns
the run context completely unchanged; its outcome depends only on
transport-level success of the per-peer calls. -/
theorem broadcastLatestForkchoice_spec (fcuPeer : Nat → Rpc PayloadStatusEnum)
    (env : Environment) (info : BlockInfo)
    (hP : 0 < env.node_clients)
    (hinfo : env.latest_block_info = some info)
    (hall : ∀ idx, idx < env.node_clients → ∃ st, fcuPeer idx = .ok st) :
    broadcastLatestForkchoice fcuPeer env = .ok env := by
  have hne : ¬ env.node_clients = 0 := Nat.pos_iff_ne_zero.mp hP
  simp only [broadcastLatestForkchoice, hne, if_false, hinfo]
  exact broadcastForkchoiceLoop_ok fcuPeer env (List.range env.node_clients)
    (fun idx hidx => hall idx (List.mem_range.mp hidx))

theorem broadcastLatestForkchoice_spec_witness :
    broadcastLatestForkchoice
      (fun idx => if idx = 0 then .ok (.invalid none) else .ok .syncing) env0 = .ok env0 :=
  broadcastLatestForkchoice_spec _ env0 ⟨5, 10⟩ (by decide) rfl
    (fun idx _ => by by_cases h : idx = 0 <;> simp [h])

/-! ### AssertMineBlock -/

/-- The `AssertMineBlock` action struct (its `_phantom` field carries no
data). -/
structure AssertMineBlock where
  node_idx : Nat
  transactions : List Nat
  expected_hash : Option Nat
  payload_attributes : PayloadAttributes
deriving DecidableEq, Repr

/-- `AssertMineBlock::execute`.  `blockOf idx` is the latest-block query on
peer `idx`; `fcu` the `fork_choice_updated_v2` response carrying
`self.payload_attributes`; `getPayload` the `get_payload_v2` response by
payload id (the retrieved envelope is discarded by the action, so it is
modeled as `Unit`). -/
def assertMineBlockExecute (self : AssertMineBlock)
    (blockOf : Nat → Rpc (Option Block)) (fcu : Rpc ForkchoiceUpdated)
    (getPayload : Nat → Rpc Unit) (env : Environment) : Except Err Environment :=
  if env.node_clients ≤ self.node_idx then .error (.nodeIndexOutOfBounds self.node_idx)
  else
    match blockOf self.node_idx with
    | .error _ => .error (.transport self.node_idx)
    | .ok none => .error .latestBlockNotFound
    | .ok (some latest_block) =>
      let _parent_hash := latest_block.header.hash
      match fcu with
      | .error _ => .error (.transport self.node_idx)
      | .ok fcu_result =>
        match fcu_result.payload_status with
        | .valid =>
          match fcu_result.payload_id with
          | some payload_id =>
            match getPayload payload_id with
            | .error _ => .error (.transport self.node_idx)
            | .ok _engine_payload => .ok env
          | none => .error .noPayloadIdReturned
        | _ => .error .payloadStatusNotValid

/-- C9: `AssertMineBlock` never reads its `expected_hash` field — two
instances differing only in `expected_hash`, run against the same run
context and identical peer responses, return the same result and leave the
context in the same state; the optional expected hash is never compared
against any retrieved payload or block. -/
theorem assertMineBlock_ignores_expected_hash (node_idx : Nat)
    (transactions : List Nat) (h1 h2 : Option Nat) (pa : PayloadAttributes)
    (blockOf : Nat → Rpc (Option Block)) (fcu : Rpc ForkchoiceUpdated)
    (getPayload : Nat → Rpc Unit) (env : Environment) :
    assertMineBlockExecute ⟨node_idx, transactions, h1, pa⟩ blockOf fcu getPayload env =
    assertMineBlockExecute ⟨node_idx, transactions, h2, pa⟩ blockOf fcu getPayload env := rfl

/-! ### Sequence -/

/-- An action, shallowly: it consumes the run context and yields either a
descriptive failure or the updated context (`Action::execute` with the
network responses already fixed). -/
def ActM := Environment → Except Err Environment

/-- `Sequence::execute`, instrumented with the execution trace: each member
action carries a label, and the returned list records the labels of the
members that were actually started, in order.  Members run one after the
other; the first failure is returned and no further member runs. -/
def seqExecute : List (Nat × ActM) → Environment → Except Err Environment × List Nat
  | [], env => (.ok env, [])
  | (l, a) :: rest, env =>
    match a env with
    | .error e => (.error e, [l])
    | .ok env' =>
      match seqExecute rest env' with
      | (r, tr) => (r, l :: tr)

theorem seqExecute_append (pre rest : List (Nat × ActM)) (env : Environment) :
    seqExecute (pre ++ rest) env =
      match seqExecute pre env with
      | (.ok env', tr) => ((seqExecute rest env').1, tr ++ (seqExecute rest env').2)
      | (.error e, tr) => (.error e, tr) := by
  induction pre generalizing env with
  | nil => simp [seqExecute]
  | cons p pre' ih =>
    obtain ⟨l, a⟩ := p
    cases ha : a env with
    | error e => simp [seqExecute, ha]
    | ok env' =>
      simp only [List.cons_append, seqExecute, ha, List.append_eq]
      rw [ih env']
      cases hp : seqExecute pre' env' with
      | mk r tr =>
        cases r with
        | error e => rfl
        | ok env'' =>
          cases hr : seqExecute rest env'' with
          | mk r' tr' => simp

/-- C8: executing a `Sequence` runs its members strictly in list order,
awaiting each to completion before the next; if a member fails after every
earlier member succeeded, the sequence returns that failure verbatim, the
trace stops at the failing member (no later member is started, whatever the
later members are); if every member always succeeds, the sequence succeeds
having run every member in order. -/
theorem seqExecute_spec :
    (∀ (pre : List (Nat × ActM)) (l : Nat) (a : ActM) (post : List (Nat × ActM))
        (env env' : Environment) (tr : List Nat) (e : Err),
      seqExecute pre env = (.ok env', tr) → a env' = .error e →
      seqExecute (pre ++ (l, a) :: post) env = (.error e, tr ++ [l]))
    ∧ (∀ (acts : List (Nat × ActM)) (env : Environment),
      (∀ p ∈ acts, ∀ env₁ : Environment, ∃ env₂, p.2 env₁ = .ok env₂) →
      ∃ envf, seqExecute acts env = (.ok envf, acts.map Prod.fst)) := by
  constructor
  · intro pre l a post env env' tr e hpre ha
    rw [seqExecute_append, hpre]
    simp only [seqExecute, ha]
  · intro acts
    induction acts with
    | nil => exact fun env _ => ⟨env, rfl⟩
    | cons p rest ih =>
      intro env hall
      obtain ⟨l, a⟩ := p
      obtain ⟨env1, h1⟩ := hall ⟨l, a⟩ (List.mem_cons_self _ _) env
      obtain ⟨envf, hf⟩ := ih env1 (fun q hq => hall q (List.mem_cons_of_mem _ hq))
      refine ⟨envf, ?_⟩
      have h1' : a env = .ok env1 := h1
      simp [seqExecute, h1', hf]

/-- An action that succeeds, advancing `latest_header_time`. -/
def actA : ActM := fun env => .ok { env with latest_header_time := env.latest_header_time + 1 }

/-- An action that always fails. -/
def actB : ActM := fun _ => .error .noNodeClients

/-- An action that succeeds without touching the context. -/
def actC : ActM := fun env => .ok env

theorem seqExecute_spec_witness :
    seqExecute [(0, actA), (1, actB), (2, actC)] env0 = (.error .noNodeClients, [0, 1])
    ∧ (2 : Nat) ∉ ([0, 1] : List Nat) :=
  ⟨seqExecute_spec.1 [(0, actA)] 1 actB [(2, actC)] env0
      { env0 with latest_header_time := env0.latest_header_time + 1 } [0] .noNodeClients
      rfl rfl,
    by decide⟩

/-! ### CheckPayloadAccepted -/

/-- The four acceptance predicates of `CheckPayloadAccepted`, together: the
peer's latest header hash equals the built payload's block hash, the header
difficulty is zero, the header mix-hash equals the built payload's
`prev_randao`, and the header extra-data length is strictly greater than
32 bytes. -/
def acceptsHeader (header : Header) (built_hash : Nat) (pa : PayloadAttributes) : Bool :=
  header.hash == built_hash && header.difficulty == 0 &&
    header.mix_hash == pa.prev_randao && decide (32 < header.extra_data.length)

/-- The context update `CheckPayloadAccepted` performs on the first peer that
passes all four checks. -/
def checkAcceptUpdate (header : Header) (pa : PayloadAttributes)
    (env : Environment) : Environment :=
  { env with
    latest_header_time := pa.timestamp
    latest_fork_choice_state :=
      { env.latest_fork_choice_state with head_block_hash := header.hash }
    latest_block_info := some { hash := header.hash, number := header.number } }

/-- The per-peer loop of `CheckPayloadAccepted::execute`.  `headerOf idx` is
`header_by_number(Latest)` on peer `idx`; `getPayloadOf idx payload_id` is
`get_payload_v3` on that peer.  A predicate mismatch skips to the next peer;
only the first passing peer (while `accepted_check` is still false) updates
the context. -/
def checkLoop (headerOf : Nat → Rpc (Option Header))
    (getPayloadOf : Nat → Nat → Rpc ExecutionPayloadEnvelopeV3) (payload_id : Nat)
    (env : Environment) (accepted_check : Bool) :
    List Nat → Except Err (Bool × Environment)
  | [] => .ok (accepted_check, env)
  | idx :: rest =>
    match headerOf idx with
    | .error _ => .error (.transport idx)
    | .ok none => .error .noLatestHeaderFromRpc
    | .ok (some rpc_latest_header) =>
      match env.latest_payload_built with
      | none => .error .noNextBuiltPayload
      | some next_new_payload =>
        match getPayloadOf idx payload_id with
        | .error _ => .error (.transport idx)
        | .ok envelope =>
          if rpc_latest_header.hash ≠ envelope.block_hash then
            checkLoop headerOf getPayloadOf payload_id env accepted_check rest
          else if rpc_latest_header.difficulty ≠ 0 then
            checkLoop headerOf getPayloadOf payload_id env accepted_check rest
          else if rpc_latest_header.mix_hash ≠ next_new_payload.prev_randao then
            checkLoop headerOf getPayloadOf payload_id env accepted_check rest
          else if rpc_latest_header.extra_data.length ≤ 32 then
            checkLoop headerOf getPayloadOf payload_id env accepted_check rest
          else if accepted_check then
            checkLoop headerOf getPayloadOf payload_id env accepted_check rest
          else
            checkLoop headerOf getPayloadOf payload_id
              (checkAcceptUpdate rpc_latest_header next_new_payload env) true rest

/-- `CheckPayloadAccepted::execute`: requires `latest_block_info` and a
recorded payload id for `latest_block_info.number + 1`, scans all peers, and
succeeds iff at least one passed the four checks. -/
def checkPayloadAccepted (headerOf : Nat → Rpc (Option Header))
    (getPayloadOf : Nat → Nat → Rpc ExecutionPayloadEnvelopeV3)
    (env : Environment) : Except Err Environment :=
  match env.latest_block_info with
  | none => .error .noLatestBlockInfo
  | some latest_block =>
    match env.payload_id_history (latest_block.number + 1) with
    | none => .error .cannotFindPayloadId
    | some payload_id =>
      match checkLoop headerOf getPayloadOf payload_id env false
          (List.range env.node_clients) with
      | .error e => .error e
      | .ok (true, env') => .ok env'
      | .ok (false, _env') => .error .noClientsPassedChecks

theorem checkLoop_cons (headerOf : Nat → Rpc (Option Header))
    (getPayloadOf : Nat → Nat → Rpc ExecutionPayloadEnvelopeV3) (payload_id : Nat)
    (env : Environment) (acc : Bool) (idx : Nat) (rest : List Nat)
    (header : Header) (envelope : ExecutionPayloadEnvelopeV3) (pa : PayloadAttributes)
    (hh : headerOf idx = .ok (some header))
    (hb : env.latest_payload_built = some pa)
    (hp : getPayloadOf idx payload_id = .ok envelope) :
    checkLoop headerOf getPayloadOf payload_id env acc (idx :: rest) =
      if acceptsHeader header envelope.block_hash pa then
        (if acc then checkLoop headerOf getPayloadOf payload_id env acc rest
         else checkLoop headerOf getPayloadOf payload_id
           (checkAcceptUpdate header pa env) true rest)
      else checkLoop headerOf getPayloadOf payload_id env acc rest := by
  simp only [checkLoop, hh, hb, hp]
  by_cases c1 : header.hash = envelope.block_hash
  · by_cases c2 : header.difficulty = 0
    · by_cases c3 : header.mix_hash = pa.prev_randao
      · by_cases c4 : header.extra_data.length ≤ 32
        · have hA : acceptsHeader header envelope.block_hash pa = false := by
            simp [acceptsHeader, Nat.not_lt.mpr c4]
          simp [c1, c2, c3, c4, hA]
        · have hA : acceptsHeader header envelope.block_hash pa = true := by
            simp [acceptsHeader, c1, c2, c3, Nat.lt_of_not_le c4]
          simp [c1, c2, c3, c4, hA]
      · have hA : acceptsHeader header envelope.block_hash pa = false := by
          simp [acceptsHeader, c3]
        simp [c1, c2, c3, hA]
    · have hA : acceptsHeader header envelope.block_hash pa = false := by
        simp [acceptsHeader, c2]
      simp [c1, c2, hA]
  · have hA : acceptsHeader header envelope.block_hash pa = false := by
      simp [acceptsHeader, c1]
    simp [c1, hA]

/-- C2: a peer scanned by `CheckPayloadAccepted` counts as accepted iff all
four predicates hold simultaneously — hash match, difficulty zero, mix-hash
equal to the built payload's `prev_randao`, and extra-data length strictly
greater than 32 — and the failure of any single predicate (e.g. extra-data
length exactly 32) makes the scan skip that peer and continue, not abort. -/
theorem checkPayloadAccepted_peer_predicates (headerOf : Nat → Rpc (Option Header))
    (getPayloadOf : Nat → Nat → Rpc ExecutionPayloadEnvelopeV3) (payload_id : Nat)
    (env : Environment) (acc : Bool) (idx : Nat) (rest : List Nat)
    (header : Header) (envelope : ExecutionPayloadEnvelopeV3) (pa : PayloadAttributes)
    (hh : headerOf idx = .ok (some header))
    (hb : env.latest_payload_built = some pa)
    (hp : getPayloadOf idx payload_id = .ok envelope) :
    (acceptsHeader header envelope.block_hash pa = true ↔
      (header.hash = envelope.block_hash ∧ header.difficulty = 0 ∧
       header.mix_hash = pa.prev_randao ∧ 32 < header.extra_data.length))
    ∧ ((header.hash = envelope.block_hash ∧ header.difficulty = 0 ∧
        header.mix_hash = pa.prev_randao ∧ 32 < header.extra_data.length) →
      checkLoop headerOf getPayloadOf payload_id env false (idx :: rest) =
        checkLoop headerOf getPayloadOf payload_id
          (checkAcceptUpdate header pa env) true rest)
    ∧ (¬ (header.hash = envelope.block_hash ∧ header.difficulty = 0 ∧
          header.mix_hash = pa.prev_randao ∧ 32 < header.extra_data.length) →
      checkLoop headerOf getPayloadOf payload_id env acc (idx :: rest) =
        checkLoop headerOf getPayloadOf payload_id env acc rest) := by
  have hiff : acceptsHeader header envelope.block_hash pa = true ↔
      (header.hash = envelope.block_hash ∧ header.difficulty = 0 ∧
       header.mix_hash = pa.prev_randao ∧ 32 < header.extra_data.length) := by
    simp [acceptsHeader, and_assoc]
  refine ⟨hiff, ?_, ?_⟩
  · intro hfour
    rw [checkLoop_cons headerOf getPayloadOf payload_id env false idx rest header envelope pa
      hh hb hp]
    simp [hiff.mpr hfour]
  · intro hfour
    rw [checkLoop_cons headerOf getPayloadOf payload_id env acc idx rest header envelope pa
      hh hb hp]
    have : acceptsHeader header envelope.block_hash pa = false := by
      cases hA : acceptsHeader header envelope.block_hash pa
      · rfl
      · exact absurd (hiff.mp hA) hfour
    simp [this]

/-- A header that passes the first three checks but has extra-data of length
exactly 32, so the fourth check fails. -/
def hdr32 : Header :=
  ⟨9, 11, 0, 3, List.replicate 32 0, none⟩

/-- A run context with a built payload staged (`prev_randao = 3`,
`timestamp = 40`) and a payload id recorded for block 11. -/
def envCPA : Environment := { env0 with
  latest_payload_built := some (builtAttributes 40 3 4)
  payload_id_history := insertMap env0.payload_id_history 11 77 }

theorem checkPayloadAccepted_peer_predicates_witness :
    (acceptsHeader hdr32 9 (builtAttributes 40 3 4) = true ↔
      (hdr32.hash = 9 ∧ hdr32.difficulty = 0 ∧
       hdr32.mix_hash = (builtAttributes 40 3 4).prev_randao ∧
       32 < hdr32.extra_data.length))
    ∧ ¬ (hdr32.hash = 9 ∧ hdr32.difficulty = 0 ∧
         hdr32.mix_hash = (builtAttributes 40 3 4).prev_randao ∧
         32 < hdr32.extra_data.length)
    ∧ checkLoop (fun _ => .ok (some hdr32)) (fun _ _ => .ok ⟨9⟩) 77 envCPA false [0] =
        checkLoop (fun _ => .ok (some hdr32)) (fun _ _ => .ok ⟨9⟩) 77 envCPA false [] := by
  have h := checkPayloadAccepted_peer_predicates (fun _ => .ok (some hdr32))
    (fun _ _ => .ok ⟨9⟩) 77 envCPA false 0 [] hdr32 ⟨9⟩ (builtAttributes 40 3 4)
    rfl rfl rfl
  have hnot : ¬ (hdr32.hash = 9 ∧ hdr32.difficulty = 0 ∧
      hdr32.mix_hash = (builtAttributes 40 3 4).prev_randao ∧
      32 < hdr32.extra_data.length) := by
    intro hc
    exact absurd hc.2.2.2 (by simp [hdr32])
  exact ⟨h.1, hnot, h.2.2 hnot⟩

theorem checkLoop_done (headerOf : Nat → Rpc (Option Header))
    (getPayloadOf : Nat → Nat → Rpc ExecutionPayloadEnvelopeV3) (payload_id : Nat)
    (pa : PayloadAttributes) (H : Nat → Header) (E : Nat → ExecutionPayloadEnvelopeV3) :
    ∀ (l : List Nat) (env : Environment), env.latest_payload_built = some pa →
      (∀ idx ∈ l, headerOf idx = .ok (some (H idx))) →
      (∀ idx ∈ l, getPayloadOf idx payload_id = .ok (E idx)) →
      checkLoop headerOf getPayloadOf payload_id env true l = .ok (true, env) := by
  intro l
  induction l with
  | nil => intro env _ _ _; rfl
  | cons idx rest ih =>
    intro env hb hH hE
    rw [checkLoop_cons headerOf getPayloadOf payload_id env true idx rest (H idx) (E idx) pa
      (hH idx (List.mem_cons_self _ _)) hb (hE idx (List.mem_cons_self _ _))]
    have hrest := ih env hb (fun j hj => hH j (List.mem_cons_of_mem _ hj))
      (fun j hj => hE j (List.mem_cons_of_mem _ hj))
    by_cases hA : acceptsHeader (H idx) (E idx).block_hash pa <;> simp [hA, hrest]

theorem checkLoop_find (headerOf : Nat → Rpc (Option Header))
    (getPayloadOf : Nat → Nat → Rpc ExecutionPayloadEnvelopeV3) (payload_id : Nat)
    (pa : PayloadAttributes) (H : Nat → Header) (E : Nat → ExecutionPayloadEnvelopeV3) :
    ∀ (l : List Nat) (env : Environment), env.latest_payload_built = some pa →
      (∀ idx ∈ l, headerOf idx = .ok (some (H idx))) →
      (∀ idx ∈ l, getPayloadOf idx payload_id = .ok (E idx)) →
      checkLoop headerOf getPayloadOf payload_id env false l =
        match l.find? (fun idx => acceptsHeader (H idx) (E idx).block_hash pa) with
        | some i => .ok (true, checkAcceptUpdate (H i) pa env)
        | none => .ok (false, env) := by
  intro l
  induction l with
  | nil => intro env _ _ _; rfl
  | cons idx rest ih =>
    intro env hb hH hE
    rw [checkLoop_cons headerOf getPayloadOf payload_id env false idx rest (H idx) (E idx) pa
      (hH idx (List.mem_cons_self _ _)) hb (hE idx (List.mem_cons_self _ _))]
    by_cases hA : acceptsHeader (H idx) (E idx).block_hash pa
    · have hupd : (checkAcceptUpdate (H idx) pa env).latest_payload_built = some pa := hb
      rw [if_pos hA, if_neg (by simp)]
      rw [checkLoop_done headerOf getPayloadOf payload_id pa H E rest _ hupd
        (fun j hj => hH j (List.mem_cons_of_mem _ hj))
        (fun j hj => hE j (List.mem_cons_of_mem _ hj))]
      simp [List.find?_cons, hA]
    · rw [if_neg hA]
      rw [ih env hb (fun j hj => hH j (List.mem_cons_of_mem _ hj))
        (fun j hj => hE j (List.mem_cons_of_mem _ hj))]
      simp only [List.find?_cons, Bool.of_not_eq_true hA]

/-- C7: under clean responses, `CheckPayloadAccepted` succeeds iff some peer
passes all four predicates; the context update — `latest_header_time` set to
the built payload's timestamp, `latest_fork_choice_state.head_block_hash`
and `latest_block_info` set from the peer header — is applied exactly once,
from the FIRST passing peer's header (`List.find?` over the index-ordered
scan); subsequent passing peers leave every field unchanged. -/
theorem checkPayloadAccepted_spec (headerOf : Nat → Rpc (Option Header))
    (getPayloadOf : Nat → Nat → Rpc ExecutionPayloadEnvelopeV3)
    (env : Environment) (info : BlockInfo) (payload_id : Nat) (pa : PayloadAttributes)
    (H : Nat → Header) (E : Nat → ExecutionPayloadEnvelopeV3)
    (hinfo : env.latest_block_info = some info)
    (hpid : env.payload_id_history (info.number + 1) = some payload_id)
    (hb : env.latest_payload_built = some pa)
    (hH : ∀ idx, idx < env.node_clients → headerOf idx = .ok (some (H idx)))
    (hE : ∀ idx, idx < env.node_clients → getPayloadOf idx payload_id = .ok (E idx)) :
    checkPayloadAccepted headerOf getPayloadOf env =
      match (List.range env.node_clients).find?
          (fun idx => acceptsHeader (H idx) (E idx).block_hash pa) with
      | some i => .ok (checkAcceptUpdate (H i) pa env)
      | none => .error .noClientsPassedChecks := by
  simp only [checkPayloadAccepted, hinfo, hpid]
  rw [checkLoop_find headerOf getPayloadOf payload_id pa H E (List.range env.node_clients)
    env hb (fun j hj => hH j (List.mem_range.mp hj)) (fun j hj => hE j (List.mem_range.mp hj))]
  cases hfind : (List.range env.node_clients).find?
      (fun idx => acceptsHeader (H idx) (E idx).block_hash pa) with
  | none => rfl
  | some i => rfl

/-- A header passing all four checks (extra-data of length 33). -/
def hdrOk : Header :=
  ⟨9, 11, 0, 3, List.replicate 33 0, none⟩

theorem checkPayloadAccepted_spec_witness :
    checkPayloadAccepted
      (fun idx => .ok (some (if idx = 0 then hdr32 else hdrOk)))
      (fun _ _ => .ok ⟨9⟩) { envCPA with node_clients := 2 } =
      .ok (checkAcceptUpdate hdrOk (builtAttributes 40 3 4)
        { envCPA with node_clients := 2 }) := by
  have h := checkPayloadAccepted_spec
    (fun idx => .ok (some (if idx = 0 then hdr32 else hdrOk)))
    (fun _ _ => .ok ⟨9⟩) { envCPA with node_clients := 2 } ⟨5, 10⟩ 77
    (builtAttributes 40 3 4) (fun idx => if idx = 0 then hdr32 else hdrOk) (fun _ => ⟨9⟩)
    rfl rfl rfl (fun idx _ => rfl) (fun idx _ => rfl)
  rw [h]
  rfl

/-! ### BroadcastNextNewPayload -/

/-- The per-peer loop of `BroadcastNextNewPayload::execute`, instrumented
with the list of peers to which a `new_payload_v3` call was actually
submitted (second component).  `blockOf idx` is the latest-block query on
peer `idx` (the reconstructed block keeps the header the oracle returns);
`newPayloadOf idx` is the status `new_payload_v3` returns on that peer.
A block-number or parent-beacon-root mismatch is an immediate hard failure
of the whole action; a non-Valid status continues to the next peer; the
first Valid status records `latest_payload_executed` and stops. -/
def broadcastPayloadLoop (blockOf : Nat → Rpc (Option Block))
    (newPayloadOf : Nat → Rpc PayloadStatusEnum)
    (next_new_payload : PayloadAttributes) (parent_beacon_block_root : Nat)
    (env : Environment) : List Nat → List Nat → Except Err Environment × List Nat
  | [], contacted => (.error .failedBroadcastToAnyClient, contacted)
  | idx :: rest, contacted =>
    match blockOf idx with
    | .error _ => (.error (.transport idx), contacted)
    | .ok none => (.error .noLatestBlockFromRpc, contacted)
    | .ok (some rpc_latest_block) =>
      match env.latest_block_info with
      | none => (.error .noLatestBlockInfo, contacted)
      | some latest_block_info =>
        if rpc_latest_block.header.number ≠ latest_block_info.number then
          (.error (.blockNumberMismatch rpc_latest_block.header.number
            latest_block_info.number), contacted)
        else
          match rpc_latest_block.header.parent_beacon_block_root with
          | none => (.error .noParentBeaconBlockRootBlock, contacted)
          | some latest_block_pbbr =>
            if parent_beacon_block_root ≠ latest_block_pbbr then
              (.error (.parentBeaconRootMismatch parent_beacon_block_root
                latest_block_pbbr), contacted)
            else
              match newPayloadOf idx with
              | .error _ => (.error (.transport idx), contacted ++ [idx])
              | .ok status =>
                if status = PayloadStatusEnum.valid then
                  (.ok { env with latest_payload_executed := some next_new_payload },
                    contacted ++ [idx])
                else
                  broadcastPayloadLoop blockOf newPayloadOf next_new_payload
                    parent_beacon_block_root env rest (contacted ++ [idx])

/-- `BroadcastNextNewPayload::execute`, instrumented with the trace of peers
actually submitted to. -/
def broadcastNextNewPayload (blockOf : Nat → Rpc (Option Block))
    (newPayloadOf : Nat → Rpc PayloadStatusEnum) (env : Environment) :
    Except Err Environment × List Nat :=
  match env.latest_payload_built with
  | none => (.error .noNextBuiltPayload, [])
  | some next_new_payload =>
    match next_new_payload.parent_beacon_block_root with
    | none => (.error .noParentBeaconBlockRootPayload, [])
    | some parent_beacon_block_root =>
      broadcastPayloadLoop blockOf newPayloadOf next_new_payload parent_beacon_block_root
        env (List.range env.node_clients) []

/-- A peer whose latest-block response is present and passes both validation
checks of `BroadcastNextNewPayload`: matching block number and matching
parent-beacon root. -/
def peerBlockClean (blockOf : Nat → Rpc (Option Block)) (info : BlockInfo)
    (pbbr : Nat) (idx : Nat) : Prop :=
  ∃ b : Block, blockOf idx = .ok (some b) ∧ b.header.number = info.number ∧
    b.header.parent_beacon_block_root = some pbbr

theorem broadcastPayloadLoop_append (blockOf : Nat → Rpc (Option Block))
    (newPayloadOf : Nat → Rpc PayloadStatusEnum) (pa : PayloadAttributes)
    (pbbr : Nat) (env : Environment) (info : BlockInfo)
    (hinfo : env.latest_block_info = some info) :
    ∀ (l1 l2 c : List Nat),
      (∀ idx ∈ l1, peerBlockClean blockOf info pbbr idx ∧
        ∃ st, newPayloadOf idx = .ok st ∧ st ≠ .valid) →
      broadcastPayloadLoop blockOf newPayloadOf pa pbbr env (l1 ++ l2) c =
        broadcastPayloadLoop blockOf newPayloadOf pa pbbr env l2 (c ++ l1) := by
  intro l1
  induction l1 with
  | nil => intro l2 c _; simp
  | cons idx l1' ih =>
    intro l2 c h
    obtain ⟨⟨b, hb, hnum, hroot⟩, st, hst, hstv⟩ := h idx (List.mem_cons_self _ _)
    simp only [List.cons_append, broadcastPayloadLoop, hb, hinfo, hnum, hroot, hst]
    rw [if_neg (by simp), if_neg (by simp), if_neg hstv]
    simp only [List.append_eq]
    rw [ih l2 (c ++ [idx]) (fun j hj => h j (List.mem_cons_of_mem _ hj))]
    simp

/-- C5: under a built payload with a parent-beacon root, `latest_block_info`
set, and every peer's latest block passing both validation checks with all
`new_payload_v3` calls transport-clean, `BroadcastNextNewPayload` visits
peers in index order; the first peer returning Valid makes it record
`latest_payload_executed` and return success with exactly peers `0..i`
contacted — no later peer is contacted; a peer returning Invalid (or any
non-Valid status) is passed over and the scan continues; and the action
fails (having contacted every peer) exactly when no peer returns Valid. -/
theorem broadcastNextNewPayload_spec (blockOf : Nat → Rpc (Option Block))
    (newPayloadOf : Nat → Rpc PayloadStatusEnum) (env : Environment)
    (info : BlockInfo) (pa : PayloadAttributes) (pbbr : Nat)
    (hb : env.latest_payload_built = some pa)
    (hroot : pa.parent_beacon_block_root = some pbbr)
    (hinfo : env.latest_block_info = some info)
    (hclean : ∀ idx, idx < env.node_clients → peerBlockClean blockOf info pbbr idx)
    (hok : ∀ idx, idx < env.node_clients →
      ∃ st, newPayloadOf idx = .ok st) :
    (∀ i, i < env.node_clients → newPayloadOf i = .ok .valid →
      (∀ j, j < i → newPayloadOf j ≠ .ok .valid) →
      broadcastNextNewPayload blockOf newPayloadOf env =
        (.ok { env with latest_payload_executed := some pa }, List.range (i + 1))
      ∧ (∀ k, i < k → k ∉ List.range (i + 1)))
    ∧ ((∀ i, i < env.node_clients → newPayloadOf i ≠ .ok .valid) →
      broadcastNextNewPayload blockOf newPayloadOf env =
        (.error .failedBroadcastToAnyClient, List.range env.node_clients)) := by
  constructor
  · intro i hi hvalid hfirst
    constructor
    · obtain ⟨bi, hbi, hbinum, hbiroot⟩ := hclean i hi
      have hsplit : List.range env.node_clients =
          (List.range i ++ [i]) ++
            (List.range (env.node_clients - (i + 1))).map ((i + 1) + ·) := by
        rw [← List.range_succ]
        rw [← List.range_add]
        congr 1
        omega
      simp only [broadcastNextNewPayload, hb, hroot]
      rw [hsplit, List.append_assoc]
      rw [broadcastPayloadLoop_append blockOf newPayloadOf pa pbbr env info hinfo
        (List.range i) _ [] ?hpre]
      case hpre =>
        intro j hj
        have hji : j < i := List.mem_range.mp hj
        have hjP : j < env.node_clients := lt_trans hji hi
        obtain ⟨st, hst⟩ := hok j hjP
        refine ⟨hclean j hjP, st, hst, ?_⟩
        intro hstv
        exact hfirst j hji (hstv ▸ hst)
      simp only [List.singleton_append, broadcastPayloadLoop, hbi, hinfo, hbinum,
        hbiroot, hvalid]
      simp [hb, hinfo, List.range_succ]
    · intro k hk
      rw [List.mem_range]
      omega
  · intro hnone
    simp only [broadcastNextNewPayload, hb, hroot]
    have := broadcastPayloadLoop_append blockOf newPayloadOf pa pbbr env info hinfo
      (List.range env.node_clients) [] [] ?hall
    case hall =>
      intro j hj
      have hjP : j < env.node_clients := List.mem_range.mp hj
      obtain ⟨st, hst⟩ := hok j hjP
      refine ⟨hclean j hjP, st, hst, ?_⟩
      intro hstv
      exact hnone j hjP (hstv ▸ hst)
    rw [List.append_nil] at this
    rw [this]
    rfl

/-- Concrete peer blocks for the broadcast scenarios: every peer reports a
block with the expected number 10 and parent-beacon root 0. -/
def blockOfBNP : Nat → Rpc (Option Block) :=
  fun _ => .ok (some ⟨⟨8, 10, 0, 0, [], some 0⟩⟩)

/-- Concrete new-payload statuses: peer 0 Invalid, peer 1 Valid, peer 2
Valid (but never reached). -/
def newPayloadOfBNP : Nat → Rpc PayloadStatusEnum :=
  fun idx => if idx = 1 then .ok .valid
    else if idx = 0 then .ok (.invalid (some 5)) else .ok .valid

/-- A run context for the broadcast scenarios: a built payload with
parent-beacon root 0 staged. -/
def envBNP : Environment :=
  { env0 with latest_payload_built := some (builtAttributes 40 3 4) }

theorem broadcastNextNewPayload_spec_witness :
    broadcastNextNewPayload blockOfBNP newPayloadOfBNP envBNP =
      (.ok { envBNP with latest_payload_executed := some (builtAttributes 40 3 4) }, [0, 1])
    ∧ (2 : Nat) ∉ ([0, 1] : List Nat) := by
  have h := (broadcastNextNewPayload_spec blockOfBNP newPayloadOfBNP envBNP ⟨5, 10⟩
    (builtAttributes 40 3 4) 0 rfl rfl rfl
    (fun idx _ => ⟨⟨⟨8, 10, 0, 0, [], some 0⟩⟩, rfl, rfl, rfl⟩)
    (fun idx _ => by
      by_cases h1 : idx = 1
      · exact ⟨.valid, by simp [newPayloadOfBNP, h1]⟩
      · by_cases h0 : idx = 0
        · exact ⟨.invalid (some 5), by simp [newPayloadOfBNP, h1, h0]⟩
        · exact ⟨.valid, by simp [newPayloadOfBNP, h1, h0]⟩)).1
    1 (by decide) rfl
    (fun j hj => by
      interval_cases j
      simp [newPayloadOfBNP])
  refine ⟨?_, by decide⟩
  rw [h.1]
  rfl

/-- C6: during the `BroadcastNextNewPayload` scan, if every peer before `i`
passes validation and returns a non-Valid status, and peer `i`'s
reconstructed block has a number different from `latest_block_info.number`
(or a parent-beacon root different from the built payload's), the whole
action fails immediately with that peer's mismatch as the error, having
submitted the payload only to peers `0..i-1` — it does not skip to the next
peer, whatever statuses the oracle would return for later peers (in
particular a later peer that would have returned Valid). -/
theorem broadcastNextNewPayload_mismatch_fails (blockOf : Nat → Rpc (Option Block))
    (newPayloadOf : Nat → Rpc PayloadStatusEnum) (env : Environment)
    (info : BlockInfo) (pa : PayloadAttributes) (pbbr : Nat) (i : Nat)
    (hb : env.latest_payload_built = some pa)
    (hroot : pa.parent_beacon_block_root = some pbbr)
    (hinfo : env.latest_block_info = some info)
    (hi : i < env.node_clients)
    (hpre : ∀ j, j < i → peerBlockClean blockOf info pbbr j ∧
      ∃ st, newPayloadOf j = .ok st ∧ st ≠ .valid) :
    (∀ b : Block, blockOf i = .ok (some b) → b.header.number ≠ info.number →
      broadcastNextNewPayload blockOf newPayloadOf env =
        (.error (.blockNumberMismatch b.header.number info.number), List.range i))
    ∧ (∀ b r, blockOf i = .ok (some b) → b.header.number = info.number →
      b.header.parent_beacon_block_root = some r → pbbr ≠ r →
      broadcastNextNewPayload blockOf newPayloadOf env =
        (.error (.parentBeaconRootMismatch pbbr r), List.range i)) := by
  have hsplit : List.range env.node_clients =
      List.range i ++ (i :: (List.range (env.node_clients - (i + 1))).map ((i + 1) + ·)) := by
    conv_lhs => rw [show env.node_clients = i + (1 + (env.node_clients - (i + 1))) by omega]
    rw [List.range_add, List.range_add]
    simp [List.range_succ, Function.comp]
  have hpre' : ∀ j ∈ List.range i, peerBlockClean blockOf info pbbr j ∧
      ∃ st, newPayloadOf j = .ok st ∧ st ≠ .valid :=
    fun j hj => hpre j (List.mem_range.mp hj)
  constructor
  · intro b hbi hnum
    simp only [broadcastNextNewPayload, hb, hroot]
    rw [hsplit,
      broadcastPayloadLoop_append blockOf newPayloadOf pa pbbr env info hinfo
        (List.range i) _ [] hpre']
    simp only [broadcastPayloadLoop, hbi, hinfo]
    rw [if_pos hnum]
    simp
  · intro b r hbi hnum hbroot hne
    simp only [broadcastNextNewPayload, hb, hroot]
    rw [hsplit,
      broadcastPayloadLoop_append blockOf newPayloadOf pa pbbr env info hinfo
        (List.range i) _ [] hpre']
    simp only [broadcastPayloadLoop, hbi, hinfo, hnum, hbroot]
    rw [if_neg (by simp), if_pos hne]
    simp

/-- Peer blocks where peer 1 reports a stale block number 9. -/
def blockOfBNP6 : Nat → Rpc (Option Block) :=
  fun idx => if idx = 1 then .ok (some ⟨⟨8, 9, 0, 0, [], some 0⟩⟩)
    else .ok (some ⟨⟨8, 10, 0, 0, [], some 0⟩⟩)

theorem broadcastNextNewPayload_mismatch_fails_witness :
    broadcastNextNewPayload blockOfBNP6 newPayloadOfBNP envBNP =
      (.error (.blockNumberMismatch 9 10), [0]) := by
  have h := (broadcastNextNewPayload_mismatch_fails blockOfBNP6 newPayloadOfBNP envBNP
    ⟨5, 10⟩ (builtAttributes 40 3 4) 0 1 rfl rfl rfl (by decide)
    (fun j hj => by
      interval_cases j
      exact ⟨⟨⟨⟨8, 10, 0, 0, [], some 0⟩⟩, rfl, rfl, rfl⟩,
        .invalid (some 5), rfl, by decide⟩)).1
    ⟨⟨8, 9, 0, 0, [], some 0⟩⟩ rfl (by decide)
  rw [h]
  rfl

end E2E
